import Mathlib

/-!
Verification of the `carcinologer` Moltbook client
(`src/carcinologer/api.py`), a shallow embedding of:

* `MoltbookAPI._request` — the bounded-retry HTTP wrapper;
* `MoltbookAPI.get_posts` — one page of the main feed, with the
  401-without-key soft downgrade;
* `MoltbookAPI.get_post_comments` — comment fetch for one post;
* `MoltbookAPI.get_all_posts` — the cursor-pagination collector.

The transport is modelled as a pure function: the outcome of the `i`-th
attempt of a request is given by `attempts i`, and a whole server session
by a function from URL (or cursor) to a response.  Sleeps are recorded in
a trace so the backoff schedule can be stated; fetched pages are likewise
recorded so "no further requests are issued" becomes a statement about
the trace.  Python truthiness of optional strings / ints is modelled
explicitly (`None` and `""` are falsy; `0` is falsy).
-/

namespace Carcinologer

/-- An HTTP response as the client sees it: a status code and a parsed
body of some endpoint-specific shape `β`. -/
structure HttpResponse (β : Type) where
  status_code : Nat
  body : β
deriving DecidableEq, Repr

/-- Outcome of one transport attempt inside `_request`: either
`httpx.Client.request` returns a response, or it raises
`httpx.TimeoutException` (identified by a tag). -/
inductive AttemptOutcome (β : Type) where
  | resp (r : HttpResponse β)
  | timeout (e : Nat)
deriving DecidableEq, Repr

/-- Result of `_request`: a returned response, a re-raised timeout, or
the `UnboundLocalError` hit by the fallback `return r` when `r` was
never bound. -/
inductive ReqResult (β : Type) where
  | returned (r : HttpResponse β)
  | raised (e : Nat)
  | unboundLocal
deriving DecidableEq, Repr

/-- `r.status_code in (429, 500, 502, 503, 504)` (api.py line 143). -/
def retryableStatus (s : Nat) : Bool :=
  s = 429 || s = 500 || s = 502 || s = 503 || s = 504

/-- The loop body of `MoltbookAPI._request` (api.py lines 139-153),
unrolled over the remaining attempt budget.

State threaded through the loop: `attempt` is the Python loop variable,
`lastError` models the `last_error` binding, `lastR` models whether (and
to what) the local `r` is bound, and `sleeps` records each
`time.sleep` argument in order.  `attempts` gives the transport outcome
of each attempt index. -/
def requestGo (attempts : Nat → AttemptOutcome β) (retry_delay : ℚ) :
    Nat → Nat → Option Nat → Option (HttpResponse β) → List ℚ →
    ReqResult β × List ℚ
  | _, 0, lastError, lastR, sleeps =>
    -- loop exhausted: `if last_error: raise last_error` then `return r`
    (match lastError with
     | some e => ReqResult.raised e
     | none =>
       match lastR with
       | some r => ReqResult.returned r
       | none => ReqResult.unboundLocal, sleeps)
  | attempt, remaining + 1, lastError, lastR, sleeps =>
    match attempts attempt with
    | AttemptOutcome.resp r =>
      if retryableStatus r.status_code then
        -- sleep `retry_delay * (attempt + 1)` and continue
        requestGo attempts retry_delay (attempt + 1) remaining lastError
          (some r) (sleeps ++ [retry_delay * ((attempt + 1 : Nat) : ℚ)])
      else
        (ReqResult.returned r, sleeps)
    | AttemptOutcome.timeout e =>
      -- `last_error = e; time.sleep(retry_delay * (attempt + 1))`
      requestGo attempts retry_delay (attempt + 1) remaining (some e)
        lastR (sleeps ++ [retry_delay * ((attempt + 1 : Nat) : ℚ)])

/-- `MoltbookAPI._request(method, url)` with `max_retries` attempts:
returns the outcome together with the recorded sleep trace. -/
def request (attempts : Nat → AttemptOutcome β) (retry_delay : ℚ)
    (max_retries : Nat) : ReqResult β × List ℚ :=
  requestGo attempts retry_delay 0 max_retries none none []

/-! ### Data model: posts and comments -/

/-- Opaque dict-shaped nested fields (`submolt`, `author`): modelled as
string key-value pairs (the code never looks inside them). -/
abbrev JsonDict : Type := List (String × String)

/-- The raw JSON shape of one element of `data["posts"]` as accessed by
`get_posts` (api.py lines 245-258): required fields are plain, fields
read with `.get` are `Option` (with `is_pinned` defaulting to `False`
at construction, line 257). -/
structure PostJson where
  id : String
  title : String
  submolt : JsonDict
  author : JsonDict
  upvotes : Int
  downvotes : Int
  comment_count : Int
  created_at : String
  content : Option String
  url : Option String
  is_pinned : Option Bool
deriving DecidableEq

/-- The `Post` dataclass (api.py lines 75-91). -/
structure Post where
  id : String
  title : String
  submolt : JsonDict
  author : JsonDict
  upvotes : Int
  downvotes : Int
  comment_count : Int
  created_at : String
  content : Option String
  url : Option String
  is_pinned : Bool
deriving DecidableEq

/-- Construction of one `Post` from a response element
(api.py lines 246-258). -/
def parsePost (p : PostJson) : Post :=
  { id := p.id
    title := p.title
    submolt := p.submolt
    author := p.author
    upvotes := p.upvotes
    downvotes := p.downvotes
    comment_count := p.comment_count
    created_at := p.created_at
    content := p.content
    url := p.url
    is_pinned := p.is_pinned.getD false }

/-- The JSON body of a posts-feed response: `data.get("posts", [])` and
`data.get("next_cursor")` make both fields optional. -/
structure PostsBody where
  posts : Option (List PostJson)
  next_cursor : Option String
deriving DecidableEq

/-- The raw JSON shape of one element of `data["comments"]` as accessed
by `get_post_comments` (api.py lines 333-342). -/
structure CommentJson where
  id : String
  content : String
  author : JsonDict
  upvotes : Int
  downvotes : Int
  created_at : String
  parent_id : Option String
deriving DecidableEq

/-- The `Comment` dataclass (api.py lines 94-104). -/
structure Comment where
  id : String
  content : String
  author : JsonDict
  upvotes : Int
  downvotes : Int
  created_at : String
  post_id : String
  parent_id : Option String
deriving DecidableEq

/-- Construction of one `Comment` (api.py lines 333-342); `post_id` is
the argument of `get_post_comments`, not a response field. -/
def parseComment (post_id : String) (c : CommentJson) : Comment :=
  { id := c.id
    content := c.content
    author := c.author
    upvotes := c.upvotes
    downvotes := c.downvotes
    created_at := c.created_at
    post_id := post_id
    parent_id := c.parent_id }

/-- The JSON body of a comments response: `data.get("comments", [])`. -/
structure CommentsBody where
  comments : Option (List CommentJson)
deriving DecidableEq

/-! ### Python truthiness -/

/-- Truthiness of an optional string (`if before:`, `not self.api_key`,
`if not cursor:`): `None` and `""` are falsy. -/
def truthyStr : Option String → Bool
  | none => false
  | some s => !(s = "")

/-- Truthiness of the optional int `max_posts` (`if max_posts and ...`):
`None` and `0` are falsy. -/
def truthyNat : Option Nat → Bool
  | none => false
  | some n => !(n = 0)

/-! ### `get_posts` and `get_post_comments` -/

/-- Errors a fetch call can surface to its caller: the
`httpx.HTTPStatusError` raised by `raise_for_status` (carrying the
status code), a re-raised transport timeout, or the unbound-variable
error of `_request`'s fallback. -/
inductive FetchError where
  | httpStatus (code : Nat)
  | timeout (e : Nat)
  | unboundLocal
deriving DecidableEq

/-- `"&".join(f"{k}={v}" for k, v in params.items())`. -/
def encodeParams (params : List (String × String)) : String :=
  String.intercalate "&" (params.map fun kv => kv.1 ++ "=" ++ kv.2)

/-- The URL built by `get_posts` (api.py lines 231-235): `sort` and the
clamped `limit` always, `before` only when truthy. -/
def get_posts_url (sort : String) (limit : Nat) (before : Option String) :
    String :=
  "https://www.moltbook.com/api/v1/posts?" ++ encodeParams
    ([("sort", sort), ("limit", toString (min limit 100))] ++
     (if truthyStr before then [("before", before.getD "")] else []))

/-- `MoltbookAPI.get_posts` (api.py lines 219-263).  The transport is a
function from URL to the `_request` outcome for that URL; `api_key` is
the client's configured key.  A 401 with no truthy key is downgraded to
an empty page (lines 237-239); any other status `≥ 400` raises; a
success parses the posts list. -/
def get_posts (transport : String → ReqResult PostsBody)
    (api_key : Option String) (sort : String) (limit : Nat)
    (before : Option String) : Except FetchError (List Post × Option String) :=
  match transport (get_posts_url sort limit before) with
  | ReqResult.raised e => Except.error (FetchError.timeout e)
  | ReqResult.unboundLocal => Except.error FetchError.unboundLocal
  | ReqResult.returned r =>
    if r.status_code = 401 && !(truthyStr api_key) then
      Except.ok ([], none)
    else if 400 ≤ r.status_code then
      Except.error (FetchError.httpStatus r.status_code)
    else
      Except.ok ((r.body.posts.getD []).map parsePost, r.body.next_cursor)

/-- `MoltbookAPI.get_post_comments` (api.py lines 312-344): a 401 with
no truthy key yields `[]`; otherwise `raise_for_status`, then each
comment is built with `post_id` taken from the argument. -/
def get_post_comments (transport : String → ReqResult CommentsBody)
    (api_key : Option String) (post_id : String) (sort : String) :
    Except FetchError (List Comment) :=
  match transport ("https://www.moltbook.com/api/v1/posts/" ++ post_id ++
      "/comments?sort=" ++ sort) with
  | ReqResult.raised e => Except.error (FetchError.timeout e)
  | ReqResult.unboundLocal => Except.error FetchError.unboundLocal
  | ReqResult.returned r =>
    if r.status_code = 401 && !(truthyStr api_key) then
      Except.ok []
    else if 400 ≤ r.status_code then
      Except.error (FetchError.httpStatus r.status_code)
    else
      Except.ok ((r.body.comments.getD []).map (parseComment post_id))

/-! ### `get_all_posts` -/

/-- `if max_posts and len(all_posts) >= max_posts` (api.py line 374). -/
def maxReached (max_posts : Option Nat) (len : Nat) : Bool :=
  truthyNat max_posts && (max_posts.getD 0 ≤ len)

/-- `all_posts[:max_posts]` (api.py line 375). -/
def truncTo (max_posts : Option Nat) (l : List Post) : List Post :=
  l.take (max_posts.getD 0)

/-- The `while True` loop of `MoltbookAPI.get_all_posts`
(api.py lines 361-382), with fuel bounding the number of iterations
(`none` = the fuel ran out before the loop terminated).  `fetch` is one
call `self.get_posts(sort=sort, limit=100, before=cursor)` as a function
of the cursor; `pages` records the `result["posts"]` list of every page
actually fetched, so the request trace is part of the result. -/
def getAllPostsGo (fetch : Option String → Except FetchError (List Post × Option String))
    (max_posts : Option Nat) :
    List Post → Option String → List (List Post) → Nat →
    Option (Except FetchError (List Post × List (List Post)))
  | _, _, _, 0 => none
  | all_posts, cursor, pages, fuel + 1 =>
    match fetch cursor with
    | Except.error e => some (Except.error e)
    | Except.ok result =>
      let posts := result.1
      let pages := pages ++ [posts]
      -- `if not posts: break`
      if posts = [] then some (Except.ok (all_posts, pages))
      else
        let all_posts := all_posts ++ posts
        -- `if max_posts and len(all_posts) >= max_posts: truncate; break`
        if maxReached max_posts all_posts.length then
          some (Except.ok (truncTo max_posts all_posts, pages))
        else
          -- `cursor = result.get("next_cursor"); if not cursor: break`
          if !(truthyStr result.2) then some (Except.ok (all_posts, pages))
          else getAllPostsGo fetch max_posts all_posts result.2 pages fuel

/-- `MoltbookAPI.get_all_posts` (api.py lines 346-384): start with an
empty accumulator and absent cursor. -/
def get_all_posts (transport : String → ReqResult PostsBody)
    (api_key : Option String) (sort : String) (max_posts : Option Nat)
    (fuel : Nat) : Option (Except FetchError (List Post × List (List Post))) :=
  getAllPostsGo (fun cursor => get_posts transport api_key sort 100 cursor)
    max_posts [] none [] fuel

/-- An attempt outcome the retry loop does not return early on: a
timeout, or a response with a retryable status. -/
def transientAttempt : AttemptOutcome β → Bool
  | AttemptOutcome.resp r => retryableStatus r.status_code
  | AttemptOutcome.timeout _ => true

/-! ### Concrete fixtures used to instantiate the theorems -/

/-- A well-formed post body with a given id. -/
def samplePostJson (s : String) : PostJson :=
  { id := s, title := "t", submolt := [], author := [], upvotes := 1,
    downvotes := 0, comment_count := 0, created_at := "2026-01-01",
    content := none, url := none, is_pinned := none }

/-- A well-formed comment body with a given id. -/
def sampleCommentJson (s : String) : CommentJson :=
  { id := s, content := "hi", author := [], upvotes := 1, downvotes := 0,
    created_at := "2026-01-01", parent_id := none }

/-- A server serving two pages of the main feed: `p1, p2` with cursor
`c1`, then `p3` with no cursor. -/
def twoPageTransport : String → ReqResult PostsBody := fun url =>
  if url = "https://www.moltbook.com/api/v1/posts?sort=new&limit=100" then
    ReqResult.returned ⟨200,
      ⟨some [samplePostJson "p1", samplePostJson "p2"], some "c1"⟩⟩
  else if url = "https://www.moltbook.com/api/v1/posts?sort=new&limit=100&before=c1" then
    ReqResult.returned ⟨200, ⟨some [samplePostJson "p3"], none⟩⟩
  else
    ReqResult.returned ⟨404, ⟨none, none⟩⟩

/-- A server always answering an empty page that nevertheless carries a
continuation cursor. -/
def emptyPageTransport : String → ReqResult PostsBody := fun _ =>
  ReqResult.returned ⟨200, ⟨some [], some "ghost"⟩⟩

/-- A server always answering 401. -/
def unauthorizedTransport : String → ReqResult PostsBody := fun _ =>
  ReqResult.returned ⟨401, ⟨none, none⟩⟩

/-- A server answering a single non-empty page with no cursor. -/
def onePageTransport : String → ReqResult PostsBody := fun _ =>
  ReqResult.returned ⟨200, ⟨some [samplePostJson "q1"], none⟩⟩

/-- A server answering one comment. -/
def oneCommentTransport : String → ReqResult CommentsBody := fun _ =>
  ReqResult.returned ⟨200, ⟨some [sampleCommentJson "k1"]⟩⟩

/-! ### Lemmas about the retry loop -/

theorem requestGo_all_retryable (attempts : Nat → AttemptOutcome β)
    (d : ℚ) (rs : Nat → HttpResponse β) :
    ∀ (m a : Nat) (lr : Option (HttpResponse β)) (s : List ℚ),
    (∀ i, i < m + 1 → attempts (a + i) = AttemptOutcome.resp (rs (a + i))) →
    (∀ i, i < m + 1 → retryableStatus (rs (a + i)).status_code = true) →
    requestGo attempts d a (m + 1) none lr s =
      (ReqResult.returned (rs (a + m)),
       s ++ (List.range' (a + 1) (m + 1)).map (fun k : Nat => d * (k : ℚ))) := by
  intro m
  induction m with
  | zero =>
    intro a lr s hresp hretry
    have h0 : attempts a = AttemptOutcome.resp (rs a) := by
      have := hresp 0 (by omega); simpa using this
    have h1 : retryableStatus (rs a).status_code = true := by
      have := hretry 0 (by omega); simpa using this
    simp [requestGo, h0, h1, List.range'_succ]
  | succ m ih =>
    intro a lr s hresp hretry
    have h0 : attempts a = AttemptOutcome.resp (rs a) := by
      have := hresp 0 (by omega); simpa using this
    have h1 : retryableStatus (rs a).status_code = true := by
      have := hretry 0 (by omega); simpa using this
    have hstep : requestGo attempts d a (m + 1 + 1) none lr s =
        requestGo attempts d (a + 1) (m + 1) none (some (rs a))
          (s ++ [d * ((a + 1 : Nat) : ℚ)]) := by
      simp [requestGo, h0, h1]
    rw [hstep, ih (a + 1) (some (rs a)) (s ++ [d * ((a + 1 : Nat) : ℚ)])
      (fun i hi => by
        have := hresp (i + 1) (by omega)
        rw [show a + (i + 1) = a + 1 + i from by omega] at this
        exact this)
      (fun i hi => by
        have := hretry (i + 1) (by omega)
        rw [show a + (i + 1) = a + 1 + i from by omega] at this
        exact this)]
    rw [show a + 1 + m = a + (m + 1) from by omega]
    simp [List.range'_succ, List.append_assoc]

theorem requestGo_retryable_raised (attempts : Nat → AttemptOutcome β)
    (d : ℚ) (e0 : Nat) :
    ∀ (m a : Nat) (lr : Option (HttpResponse β)) (s : List ℚ),
    (∀ i, i < m → ∃ r, attempts (a + i) = AttemptOutcome.resp r ∧
      retryableStatus r.status_code = true) →
    (requestGo attempts d a m (some e0) lr s).1 = ReqResult.raised e0 := by
  intro m
  induction m with
  | zero => intro a lr s _; simp [requestGo]
  | succ m ih =>
    intro a lr s h
    obtain ⟨r, hr, hret⟩ := h 0 (by omega)
    rw [show a + 0 = a from by omega] at hr
    have hstep : requestGo attempts d a (m + 1) (some e0) lr s =
        requestGo attempts d (a + 1) m (some e0) (some r)
          (s ++ [d * ((a + 1 : Nat) : ℚ)]) := by
      simp [requestGo, hr, hret]
    rw [hstep]
    exact ih (a + 1) (some r) _ (fun i hi => by
      obtain ⟨r', h1, h2⟩ := h (i + 1) (by omega)
      exact ⟨r', by rw [show a + 1 + i = a + (i + 1) from by omega]; exact h1, h2⟩)

theorem requestGo_ne_unboundLocal (attempts : Nat → AttemptOutcome β) (d : ℚ) :
    ∀ (m a : Nat) (le : Option Nat) (lr : Option (HttpResponse β)) (s : List ℚ),
    (requestGo attempts d a (m + 1) le lr s).1 ≠ ReqResult.unboundLocal := by
  intro m
  induction m with
  | zero =>
    intro a le lr s
    cases hA : attempts a with
    | resp r =>
      by_cases hs : retryableStatus r.status_code
      · cases le <;> simp [requestGo, hA, hs]
      · simp [requestGo, hA, hs]
    | timeout e => simp [requestGo, hA]
  | succ m ih =>
    intro a le lr s
    cases hA : attempts a with
    | resp r =>
      by_cases hs : retryableStatus r.status_code
      · have hstep : requestGo attempts d a (m + 1 + 1) le lr s =
            requestGo attempts d (a + 1) (m + 1) le (some r)
              (s ++ [d * ((a + 1 : Nat) : ℚ)]) := by
          simp [requestGo, hA, hs]
        rw [hstep]; exact ih _ _ _ _
      · simp [requestGo, hA, hs]
    | timeout e =>
      have hstep : requestGo attempts d a (m + 1 + 1) le lr s =
          requestGo attempts d (a + 1) (m + 1) (some e) lr
            (s ++ [d * ((a + 1 : Nat) : ℚ)]) := by
        simp [requestGo, hA]
      rw [hstep]; exact ih _ _ _ _

theorem requestGo_transient_prefix (attempts : Nat → AttemptOutcome β) (d : ℚ) :
    ∀ (p a q : Nat) (le : Option Nat) (lr : Option (HttpResponse β)) (s : List ℚ),
    (∀ i, i < p → transientAttempt (attempts (a + i)) = true) →
    ∃ le' lr' s', requestGo attempts d a (p + q) le lr s =
      requestGo attempts d (a + p) q le' lr' s' := by
  intro p
  induction p with
  | zero => intro a q le lr s _; exact ⟨le, lr, s, by simp⟩
  | succ p ih =>
    intro a q le lr s h
    have h0 : transientAttempt (attempts a) = true := by
      have := h 0 (by omega); simpa using this
    rw [show p + 1 + q = (p + q) + 1 from by omega]
    cases hA : attempts a with
    | resp r =>
      have hs : retryableStatus r.status_code = true := by
        rw [hA] at h0; simpa [transientAttempt] using h0
      have hstep : requestGo attempts d a ((p + q) + 1) le lr s =
          requestGo attempts d (a + 1) (p + q) le (some r)
            (s ++ [d * ((a + 1 : Nat) : ℚ)]) := by
        simp [requestGo, hA, hs]
      obtain ⟨le', lr', s', hrec⟩ := ih (a + 1) q le (some r)
        (s ++ [d * ((a + 1 : Nat) : ℚ)])
        (fun i hi => by
          have := h (i + 1) (by omega)
          rw [show a + (i + 1) = a + 1 + i from by omega] at this
          exact this)
      exact ⟨le', lr', s', by
        rw [hstep, hrec, show a + 1 + p = a + (p + 1) from by omega]⟩
    | timeout e =>
      have hstep : requestGo attempts d a ((p + q) + 1) le lr s =
          requestGo attempts d (a + 1) (p + q) (some e) lr
            (s ++ [d * ((a + 1 : Nat) : ℚ)]) := by
        simp [requestGo, hA]
      obtain ⟨le', lr', s', hrec⟩ := ih (a + 1) q (some e) lr
        (s ++ [d * ((a + 1 : Nat) : ℚ)])
        (fun i hi => by
          have := h (i + 1) (by omega)
          rw [show a + (i + 1) = a + 1 + i from by omega] at this
          exact this)
      exact ⟨le', lr', s', by
        rw [hstep, hrec, show a + 1 + p = a + (p + 1) from by omega]⟩

/-! ### Claims about `_request` -/

/-- C1: for every request whose every attempt yields a response with a
status in {429, 500, 502, 503, 504}, `_request` makes up to
`max_retries` attempts, sleeping `retry_delay * (attempt_index + 1)`
before each retry (strictly increasing, linear, 1-indexed delays when
the delay is positive), and after exhausting the attempt budget returns
the response of the final attempt as-is. -/
theorem C1_all_retryable_returns_final (attempts : Nat → AttemptOutcome β)
    (d : ℚ) (rs : Nat → HttpResponse β) (n : Nat) (hn : 1 ≤ n)
    (hresp : ∀ i, i < n → attempts i = AttemptOutcome.resp (rs i))
    (hretry : ∀ i, i < n → retryableStatus (rs i).status_code = true) :
    request attempts d n =
      (ReqResult.returned (rs (n - 1)),
       (List.range' 1 n).map (fun k : Nat => d * (k : ℚ))) ∧
    (0 < d →
      ((List.range' 1 n).map (fun k : Nat => d * (k : ℚ))).Pairwise (· < ·)) := by
  obtain ⟨m, rfl⟩ : ∃ m, n = m + 1 := ⟨n - 1, by omega⟩
  constructor
  · have h := requestGo_all_retryable attempts d rs m 0 none []
      (fun i hi => by simpa using hresp i hi)
      (fun i hi => by simpa using hretry i hi)
    unfold request
    simpa using h
  · intro hd
    refine List.Pairwise.map _ (fun a b hab => ?_) (List.pairwise_lt_range' 1 (m + 1))
    exact (mul_lt_mul_left hd).mpr (by exact_mod_cast hab)

/-- Witness for C1: three attempts all answering 500 with delay 2. -/
theorem C1_witness :
    request (fun _ => AttemptOutcome.resp (⟨500, ()⟩ : HttpResponse Unit)) 2 3 =
      (ReqResult.returned ⟨500, ()⟩,
       (List.range' 1 3).map (fun k : Nat => (2 : ℚ) * (k : ℚ))) ∧
    (0 < (2 : ℚ) →
      ((List.range' 1 3).map (fun k : Nat => (2 : ℚ) * (k : ℚ))).Pairwise (· < ·)) :=
  C1_all_retryable_returns_final (fun _ => AttemptOutcome.resp ⟨500, ()⟩) 2
    (fun _ => ⟨500, ()⟩) 3 (by omega) (fun _ _ => rfl) (fun _ _ => rfl)

/-- C2 counterexample: attempt 0 times out, attempt 1 answers a
retryable 500, `max_retries = 2`.  The claim says the last retryable
response is returned; the code raises the captured timeout, because a
later retryable-status response never clears `last_error`. -/
theorem C2_counterexample :
    (request (fun i => if i = 0 then AttemptOutcome.timeout 7
        else AttemptOutcome.resp (⟨500, ()⟩ : HttpResponse Unit)) 2 2).1 =
      ReqResult.raised 7 ∧
    ∀ r, (request (fun i => if i = 0 then AttemptOutcome.timeout 7
        else AttemptOutcome.resp (⟨500, ()⟩ : HttpResponse Unit)) 2 2).1 ≠
      ReqResult.returned r :=
  ⟨rfl, fun _ h => ReqResult.noConfusion h⟩

/-- C2 amended: `_request` re-raises the captured timeout of the last
timing-out attempt whenever at least one attempt times out and every
attempt yields a timeout or a retryable-status response; in particular
it does so when all attempts time out, but a retryable-status response
after a timeout does not clear the captured timeout, so the timeout is
still raised rather than the response being returned. -/
theorem C2_amended_last_timeout_raised (attempts : Nat → AttemptOutcome β)
    (d : ℚ) (n j e : Nat)
    (htrans : ∀ i, i < n → transientAttempt (attempts i) = true)
    (hj : j < n) (hje : attempts j = AttemptOutcome.timeout e)
    (hlast : ∀ k, j < k → k < n → ∀ e', attempts k ≠ AttemptOutcome.timeout e') :
    (request attempts d n).1 = ReqResult.raised e := by
  unfold request
  obtain ⟨le', lr', s', hpre⟩ := requestGo_transient_prefix attempts d j 0 (n - j)
    none none [] (fun i hi => by simpa using htrans i (by omega))
  rw [show n = j + (n - j) from by omega, hpre, show (0 : Nat) + j = j from by omega,
    show n - j = (n - j - 1) + 1 from by omega]
  have hstep : requestGo attempts d j ((n - j - 1) + 1) le' lr' s' =
      requestGo attempts d (j + 1) (n - j - 1) (some e) lr'
        (s' ++ [d * ((j + 1 : Nat) : ℚ)]) := by
    simp [requestGo, hje]
  rw [hstep]
  apply requestGo_retryable_raised
  intro i hi
  have hk : j + 1 + i < n := by omega
  have ht := htrans (j + 1 + i) hk
  cases hA : attempts (j + 1 + i) with
  | resp r =>
    refine ⟨r, rfl, ?_⟩
    rw [hA] at ht
    simpa [transientAttempt] using ht
  | timeout e' => exact absurd hA (hlast (j + 1 + i) (by omega) hk e')

/-- Witness for the amended C2: timeout then 500, delay 2, two attempts;
the captured timeout is re-raised. -/
theorem C2_amended_witness :
    (request (fun i => if i = 0 then AttemptOutcome.timeout 7
        else AttemptOutcome.resp (⟨500, ()⟩ : HttpResponse Unit)) 2 2).1 =
      ReqResult.raised 7 :=
  C2_amended_last_timeout_raised
    (fun i => if i = 0 then AttemptOutcome.timeout 7
      else AttemptOutcome.resp ⟨500, ()⟩) 2 2 0 7
    (fun i hi => by interval_cases i <;> decide)
    (by omega) rfl
    (fun k h1 h2 e' h => by interval_cases k; exact AttemptOutcome.noConfusion h)

/-- C8: with `max_retries ≥ 1` the fallback `return r` can never hit an
unbound `r` (and when no timeout was captured and every attempt answered
a retryable status it returns the final attempt's response); with
`max_retries = 0` the loop never runs, so the fallback references an
unbound `r` and `_request` cannot return a response. -/
theorem C8_fallback_reachability (β : Type) :
    (∀ (attempts : Nat → AttemptOutcome β) (d : ℚ) (n : Nat), 1 ≤ n →
      (request attempts d n).1 ≠ ReqResult.unboundLocal) ∧
    (∀ (attempts : Nat → AttemptOutcome β) (d : ℚ) (rs : Nat → HttpResponse β)
      (n : Nat), 1 ≤ n →
      (∀ i, i < n → attempts i = AttemptOutcome.resp (rs i)) →
      (∀ i, i < n → retryableStatus (rs i).status_code = true) →
      (request attempts d n).1 = ReqResult.returned (rs (n - 1))) ∧
    (∀ (attempts : Nat → AttemptOutcome β) (d : ℚ),
      (request attempts d 0).1 = ReqResult.unboundLocal) := by
  refine ⟨?_, ?_, ?_⟩
  · intro attempts d n hn
    obtain ⟨m, rfl⟩ : ∃ m, n = m + 1 := ⟨n - 1, by omega⟩
    exact requestGo_ne_unboundLocal attempts d m 0 none none []
  · intro attempts d rs n hn hresp hretry
    obtain ⟨m, rfl⟩ : ∃ m, n = m + 1 := ⟨n - 1, by omega⟩
    have h := requestGo_all_retryable attempts d rs m 0 none []
      (fun i hi => by simpa using hresp i hi)
      (fun i hi => by simpa using hretry i hi)
    unfold request
    rw [h]
    simp
  · intro attempts d
    rfl

/-- Witness for C8: two all-500 attempts never hit the unbound fallback
and return the final response; zero attempts do hit it. -/
theorem C8_witness :
    (request (fun _ => AttemptOutcome.resp (⟨500, ()⟩ : HttpResponse Unit)) 2 2).1 ≠
      ReqResult.unboundLocal ∧
    (request (fun _ => AttemptOutcome.resp (⟨500, ()⟩ : HttpResponse Unit)) 2 2).1 =
      ReqResult.returned ⟨500, ()⟩ ∧
    (request (fun _ => AttemptOutcome.resp (⟨500, ()⟩ : HttpResponse Unit)) 2 0).1 =
      ReqResult.unboundLocal :=
  ⟨(C8_fallback_reachability Unit).1 _ 2 2 (by omega),
   (C8_fallback_reachability Unit).2.1 _ 2 (fun _ => ⟨500, ()⟩) 2 (by omega)
     (fun _ _ => rfl) (fun _ _ => rfl),
   (C8_fallback_reachability Unit).2.2 _ 2⟩

/-! ### Lemmas about the pagination loop -/

theorem getAllPostsGo_empty_page
    (fetch : Option String → Except FetchError (List Post × Option String))
    (mp : Option Nat) (acc : List Post) (cursor : Option String)
    (pages : List (List Post)) (fuel : Nat) (c : Option String)
    (h : fetch cursor = Except.ok ([], c)) :
    getAllPostsGo fetch mp acc cursor pages (fuel + 1) =
      some (Except.ok (acc, pages ++ [[]])) := by
  simp [getAllPostsGo, h]

theorem getAllPostsGo_nonempty_step
    (fetch : Option String → Except FetchError (List Post × Option String))
    (mp : Option Nat) (acc : List Post) (cursor : Option String)
    (pages : List (List Post)) (fuel : Nat) (ps : List Post) (c : Option String)
    (hf : fetch cursor = Except.ok (ps, c)) (hps : ps ≠ []) :
    getAllPostsGo fetch mp acc cursor pages (fuel + 1) =
      (if maxReached mp (acc ++ ps).length then
        some (Except.ok (truncTo mp (acc ++ ps), pages ++ [ps]))
      else if truthyStr c = false then
        some (Except.ok (acc ++ ps, pages ++ [ps]))
      else getAllPostsGo fetch mp (acc ++ ps) c (pages ++ [ps]) fuel) := by
  by_cases hmax : maxReached mp (acc ++ ps).length = true
  · simp [getAllPostsGo, hf, hps, hmax]
  · by_cases hc : truthyStr c = false
    · simp [getAllPostsGo, hf, hps, hmax, hc]
    · simp [getAllPostsGo, hf, hps, hmax, hc]

theorem maxReached_false_lt (mp : Option Nat) (len : Nat)
    (hmax : ¬maxReached mp len = true) (ht : truthyNat mp = true) :
    len < mp.getD 0 := by
  simp only [maxReached, Bool.and_eq_true, decide_eq_true_eq, not_and, ht,
    forall_const] at hmax
  omega

theorem getAllPostsGo_collects
    (fetch : Option String → Except FetchError (List Post × Option String))
    (mp : Option Nat) :
    ∀ (fuel : Nat) (acc : List Post) (cursor : Option String)
      (pages : List (List Post)) (res : List Post) (pagesOut : List (List Post)),
    (truthyNat mp = true → acc.length < mp.getD 0) →
    getAllPostsGo fetch mp acc cursor pages fuel = some (Except.ok (res, pagesOut)) →
    ∃ newPages, pagesOut = pages ++ newPages ∧
      res = (if truthyNat mp then (acc ++ newPages.flatten).take (mp.getD 0)
             else acc ++ newPages.flatten) := by
  intro fuel
  induction fuel with
  | zero =>
    intro acc cursor pages res pagesOut _ h
    simp [getAllPostsGo] at h
  | succ fuel ih =>
    intro acc cursor pages res pagesOut hinv h
    cases hf : fetch cursor with
    | error e => simp [getAllPostsGo, hf] at h
    | ok result =>
      obtain ⟨ps, c⟩ := result
      by_cases hps : ps = []
      · subst hps
        rw [getAllPostsGo_empty_page fetch mp acc cursor pages fuel c hf] at h
        simp only [Option.some.injEq, Except.ok.injEq, Prod.mk.injEq] at h
        obtain ⟨hres, hpages⟩ := h
        subst hres
        refine ⟨[[]], hpages.symm, ?_⟩
        by_cases ht : truthyNat mp
        · simp [ht, List.take_of_length_le (le_of_lt (hinv ht))]
        · simp [ht]
      · rw [getAllPostsGo_nonempty_step fetch mp acc cursor pages fuel ps c hf hps] at h
        by_cases hmax : maxReached mp (acc ++ ps).length = true
        · rw [if_pos hmax] at h
          simp only [Option.some.injEq, Except.ok.injEq, Prod.mk.injEq] at h
          obtain ⟨hres, hpages⟩ := h
          have ht : truthyNat mp = true ∧ mp.getD 0 ≤ (acc ++ ps).length := by
            simpa [maxReached] using hmax
          refine ⟨[ps], hpages.symm, ?_⟩
          simp [ht.1, ← hres, truncTo]
        · rw [if_neg hmax] at h
          by_cases hc : truthyStr c = false
          · rw [if_pos hc] at h
            simp only [Option.some.injEq, Except.ok.injEq, Prod.mk.injEq] at h
            obtain ⟨hres, hpages⟩ := h
            refine ⟨[ps], hpages.symm, ?_⟩
            by_cases ht : truthyNat mp
            · simp [ht, ← hres,
                List.take_of_length_le (le_of_lt (maxReached_false_lt mp _ hmax ht))]
            · simp [ht, ← hres]
          · rw [if_neg hc] at h
            obtain ⟨newPages, hpg, hres⟩ :=
              ih (acc ++ ps) c (pages ++ [ps]) res pagesOut
                (fun ht => maxReached_false_lt mp _ hmax ht) h
            refine ⟨ps :: newPages, by simp [hpg], ?_⟩
            simpa [List.append_assoc] using hres

theorem get_all_posts_collects (transport : String → ReqResult PostsBody)
    (api_key : Option String) (sort : String) (mp : Option Nat) (fuel : Nat)
    (res : List Post) (pagesOut : List (List Post))
    (h : get_all_posts transport api_key sort mp fuel =
      some (Except.ok (res, pagesOut))) :
    res = (if truthyNat mp then pagesOut.flatten.take (mp.getD 0)
           else pagesOut.flatten) := by
  obtain ⟨newPages, hpg, hres⟩ := getAllPostsGo_collects _ mp fuel [] none [] res
    pagesOut
    (fun ht => by
      cases mp with
      | none => simp [truthyNat] at ht
      | some n =>
        simp only [truthyNat, Bool.not_eq_true', decide_eq_false_iff_not] at ht
        simp only [Option.getD_some, List.length_nil]
        omega)
    h
  subst hpg
  simpa using hres

theorem getAllPostsGo_prompt_stop
    (fetch : Option String → Except FetchError (List Post × Option String))
    (mp : Option Nat) :
    ∀ (fuel : Nat) (acc : List Post) (cursor : Option String)
      (pages : List (List Post)) (res : List Post) (pagesOut : List (List Post)),
    (truthyNat mp = true → acc.length < mp.getD 0) →
    getAllPostsGo fetch mp acc cursor pages fuel = some (Except.ok (res, pagesOut)) →
    ∃ newPages, pagesOut = pages ++ newPages ∧ newPages ≠ [] ∧
      (truthyNat mp = true →
        (acc ++ newPages.dropLast.flatten).length < mp.getD 0) := by
  intro fuel
  induction fuel with
  | zero =>
    intro acc cursor pages res pagesOut _ h
    simp [getAllPostsGo] at h
  | succ fuel ih =>
    intro acc cursor pages res pagesOut hinv h
    cases hf : fetch cursor with
    | error e => simp [getAllPostsGo, hf] at h
    | ok result =>
      obtain ⟨ps, c⟩ := result
      by_cases hps : ps = []
      · subst hps
        rw [getAllPostsGo_empty_page fetch mp acc cursor pages fuel c hf] at h
        simp only [Option.some.injEq, Except.ok.injEq, Prod.mk.injEq] at h
        exact ⟨[[]], h.2.symm, by simp, fun ht => by simpa using hinv ht⟩
      · rw [getAllPostsGo_nonempty_step fetch mp acc cursor pages fuel ps c hf
          hps] at h
        by_cases hmax : maxReached mp (acc ++ ps).length = true
        · rw [if_pos hmax] at h
          simp only [Option.some.injEq, Except.ok.injEq, Prod.mk.injEq] at h
          exact ⟨[ps], h.2.symm, by simp, fun ht => by simpa using hinv ht⟩
        · rw [if_neg hmax] at h
          by_cases hc : truthyStr c = false
          · rw [if_pos hc] at h
            simp only [Option.some.injEq, Except.ok.injEq, Prod.mk.injEq] at h
            exact ⟨[ps], h.2.symm, by simp, fun ht => by simpa using hinv ht⟩
          · rw [if_neg hc] at h
            obtain ⟨newPages, hpg, hne, hlt⟩ :=
              ih (acc ++ ps) c (pages ++ [ps]) res pagesOut
                (fun ht => maxReached_false_lt mp _ hmax ht) h
            refine ⟨ps :: newPages, by simp [hpg], by simp, fun ht => ?_⟩
            have hrec := hlt ht
            rw [List.dropLast_cons_of_ne_nil hne]
            simpa [List.append_assoc] using hrec

/-! ### Claims about the pagination collector -/

/-- C4: for every terminating collection run of `get_all_posts`, the
returned list is the concatenation, in page order, of the per-page
record lists fetched by `get_posts` (truncated to `max_posts` when a
truthy maximum is set); in particular it is always a sublist of that
concatenation, so no record is duplicated and none is dropped up to the
`max_posts` truncation. -/
theorem C4_pages_concatenation (transport : String → ReqResult PostsBody)
    (api_key : Option String) (sort : String) (mp : Option Nat) (fuel : Nat)
    (res : List Post) (pagesOut : List (List Post))
    (h : get_all_posts transport api_key sort mp fuel =
      some (Except.ok (res, pagesOut))) :
    res = (if truthyNat mp then pagesOut.flatten.take (mp.getD 0)
           else pagesOut.flatten) ∧
    res.Sublist pagesOut.flatten := by
  have hcol := get_all_posts_collects transport api_key sort mp fuel res pagesOut h
  refine ⟨hcol, ?_⟩
  rw [hcol]
  by_cases ht : truthyNat mp
  · simp [ht, List.take_sublist]
  · simp [ht]

/-- Witness for C4: a two-page run collects `p1, p2, p3` as the
concatenation of its two fetched pages. -/
theorem C4_witness :
    ([parsePost (samplePostJson "p1"), parsePost (samplePostJson "p2"),
      parsePost (samplePostJson "p3")] =
      (if truthyNat (none : Option Nat) then
        ([[parsePost (samplePostJson "p1"), parsePost (samplePostJson "p2")],
          [parsePost (samplePostJson "p3")]] : List (List Post)).flatten.take
          ((none : Option Nat).getD 0)
       else ([[parsePost (samplePostJson "p1"), parsePost (samplePostJson "p2")],
          [parsePost (samplePostJson "p3")]] : List (List Post)).flatten)) ∧
    List.Sublist
      [parsePost (samplePostJson "p1"), parsePost (samplePostJson "p2"),
        parsePost (samplePostJson "p3")]
      ([[parsePost (samplePostJson "p1"), parsePost (samplePostJson "p2")],
        [parsePost (samplePostJson "p3")]] : List (List Post)).flatten :=
  C4_pages_concatenation twoPageTransport none "new" none 5 _ _ rfl

/-- C3 counterexample: with `max_posts = 0` and three records
available, the claim as stated demands exactly `0` records; the code
treats `0` as falsy (no limit) and returns all three. -/
theorem C3_counterexample :
    get_all_posts twoPageTransport none "new" (some 0) 5 =
      some (Except.ok
        ([parsePost (samplePostJson "p1"), parsePost (samplePostJson "p2"),
          parsePost (samplePostJson "p3")],
         [[parsePost (samplePostJson "p1"), parsePost (samplePostJson "p2")],
          [parsePost (samplePostJson "p3")]])) ∧
    [parsePost (samplePostJson "p1"), parsePost (samplePostJson "p2"),
      parsePost (samplePostJson "p3")].length ≠ 0 :=
  ⟨rfl, by simp⟩

/-- C3 amended: with a truthy maximum `max_posts = N ≥ 1`, a
terminating run that fetched at least `N` records returns exactly `N`
records, truncating the final fetched page; and the collector stops as
soon as the accumulator has reached or exceeded `N`: the fetched-pages
trace is non-empty and every page before its last left the accumulator
strictly below `N`, so no page request is ever issued past the limit. -/
theorem C3_max_posts_truncation (transport : String → ReqResult PostsBody)
    (api_key : Option String) (sort : String) (N fuel : Nat)
    (res : List Post) (pagesOut : List (List Post)) (hN : 1 ≤ N)
    (h : get_all_posts transport api_key sort (some N) fuel =
      some (Except.ok (res, pagesOut)))
    (havail : N ≤ pagesOut.flatten.length) :
    res = pagesOut.flatten.take N ∧ res.length = N ∧
    pagesOut ≠ [] ∧ pagesOut.dropLast.flatten.length < N := by
  have hcol := get_all_posts_collects transport api_key sort (some N) fuel res
    pagesOut h
  have ht : truthyNat (some N) = true := by
    simp only [truthyNat, Bool.not_eq_true', decide_eq_false_iff_not]
    omega
  rw [ht] at hcol
  have hres : res = pagesOut.flatten.take N := by simpa using hcol
  have hloop : getAllPostsGo
      (fun cursor => get_posts transport api_key sort 100 cursor) (some N)
      [] none [] fuel = some (Except.ok (res, pagesOut)) := h
  obtain ⟨newPages, hpg, hne, hlt⟩ :=
    getAllPostsGo_prompt_stop _ (some N) fuel [] none [] res pagesOut
      (fun _ => by simpa using hN) hloop
  have hpg' : pagesOut = newPages := by simpa using hpg
  subst hpg'
  refine ⟨hres, ?_, hne, ?_⟩
  · rw [hres, List.length_take]
    omega
  · simpa using hlt ht

/-- Witness for C3: `max_posts = 1` against the two-page server returns
exactly the first record, truncating the first page, and the trace is
that single limit-reaching page: no page was fetched past the limit. -/
theorem C3_witness :
    [parsePost (samplePostJson "p1")] =
      ([[parsePost (samplePostJson "p1"), parsePost (samplePostJson "p2")]] :
        List (List Post)).flatten.take 1 ∧
    [parsePost (samplePostJson "p1")].length = 1 ∧
    ([[parsePost (samplePostJson "p1"), parsePost (samplePostJson "p2")]] :
      List (List Post)) ≠ [] ∧
    ([[parsePost (samplePostJson "p1"), parsePost (samplePostJson "p2")]] :
      List (List Post)).dropLast.flatten.length < 1 :=
  C3_max_posts_truncation twoPageTransport none "new" 1 5 _ _ (by omega) rfl
    (by simp)

/-- C6: a fetched page with zero records stops the collector as normal
termination: the accumulator so far is returned and that page's cursor
is never consulted (the conclusion holds for every cursor value `c` the
page carries); at top level, an empty first page yields the empty list
after exactly one request. -/
theorem C6_empty_page_terminates :
    (∀ (fetch : Option String → Except FetchError (List Post × Option String))
       (mp : Option Nat) (acc : List Post) (cursor : Option String)
       (pages : List (List Post)) (fuel : Nat) (c : Option String),
      fetch cursor = Except.ok ([], c) →
      getAllPostsGo fetch mp acc cursor pages (fuel + 1) =
        some (Except.ok (acc, pages ++ [[]]))) ∧
    (∀ (transport : String → ReqResult PostsBody) (api_key : Option String)
       (sort : String) (mp : Option Nat) (fuel : Nat) (c : Option String),
      get_posts transport api_key sort 100 none = Except.ok ([], c) →
      get_all_posts transport api_key sort mp (fuel + 1) =
        some (Except.ok ([], [[]]))) := by
  refine ⟨getAllPostsGo_empty_page, ?_⟩
  intro transport api_key sort mp fuel c h
  unfold get_all_posts
  rw [getAllPostsGo_empty_page _ mp [] none [] fuel c h]
  rfl

/-- Witness for C6: an empty page carrying a live-looking cursor still
terminates the loop with one fetch and an empty result. -/
theorem C6_witness :
    getAllPostsGo (fun _ => Except.ok ([], some "zzz")) none [] none [] 1 =
      some (Except.ok ([], [[]])) ∧
    get_all_posts emptyPageTransport none "new" none 1 =
      some (Except.ok ([], [[]])) :=
  ⟨C6_empty_page_terminates.1 (fun _ => Except.ok ([], some "zzz")) none [] none
    [] 0 (some "zzz") rfl,
   C6_empty_page_terminates.2 emptyPageTransport none "new" none 0 (some "ghost")
    rfl⟩

/-- C7: when a fetched page is non-empty and its next cursor is falsy
(absent or empty), the collector stops after appending that page's
records (truncated only if the limit was reached on it) and issues no
further request: the fetched-pages trace ends with that page; at top
level, such a first page is the whole result after one request. -/
theorem C7_absent_cursor_stops :
    (∀ (fetch : Option String → Except FetchError (List Post × Option String))
       (mp : Option Nat) (acc : List Post) (cursor : Option String)
       (pages : List (List Post)) (fuel : Nat) (ps : List Post)
       (c : Option String),
      fetch cursor = Except.ok (ps, c) → ps ≠ [] → truthyStr c = false →
      getAllPostsGo fetch mp acc cursor pages (fuel + 1) =
        some (Except.ok
          ((if maxReached mp (acc ++ ps).length then truncTo mp (acc ++ ps)
            else acc ++ ps), pages ++ [ps]))) ∧
    (∀ (transport : String → ReqResult PostsBody) (api_key : Option String)
       (sort : String) (mp : Option Nat) (fuel : Nat) (ps : List Post)
       (c : Option String),
      get_posts transport api_key sort 100 none = Except.ok (ps, c) →
      ps ≠ [] → truthyStr c = false →
      get_all_posts transport api_key sort mp (fuel + 1) =
        some (Except.ok
          ((if maxReached mp ps.length then truncTo mp ps else ps), [ps]))) := by
  constructor
  · intro fetch mp acc cursor pages fuel ps c hf hps hc
    rw [getAllPostsGo_nonempty_step _ mp acc cursor pages fuel ps c hf hps]
    by_cases hmax : maxReached mp (acc ++ ps).length = true
    · rw [if_pos hmax, if_pos hmax]
    · rw [if_neg hmax, if_pos hc, if_neg hmax]
  · intro transport api_key sort mp fuel ps c hf hps hc
    unfold get_all_posts
    rw [getAllPostsGo_nonempty_step _ mp [] none [] fuel ps c hf hps]
    simp only [List.nil_append]
    by_cases hmax : maxReached mp ps.length = true
    · rw [if_pos hmax, if_pos hmax]
    · rw [if_neg hmax, if_pos hc, if_neg hmax]

/-- Witness for C7: a single non-empty page with an absent cursor is
returned whole after one request, both for the bare loop and for
`get_all_posts`. -/
theorem C7_witness :
    getAllPostsGo (fun _ => Except.ok ([parsePost (samplePostJson "q1")], none))
        none [] none [] 1 =
      some (Except.ok
        ((if maxReached none ([] ++ [parsePost (samplePostJson "q1")]).length then
            truncTo none ([] ++ [parsePost (samplePostJson "q1")])
          else [] ++ [parsePost (samplePostJson "q1")]),
         [] ++ [[parsePost (samplePostJson "q1")]])) ∧
    get_all_posts onePageTransport none "new" none 1 =
      some (Except.ok
        ((if maxReached none [parsePost (samplePostJson "q1")].length then
            truncTo none [parsePost (samplePostJson "q1")]
          else [parsePost (samplePostJson "q1")]),
         [[parsePost (samplePostJson "q1")]])) :=
  ⟨C7_absent_cursor_stops.1 (fun _ => Except.ok ([parsePost (samplePostJson "q1")], none))
      none [] none [] 0 _ none rfl (by simp) rfl,
   C7_absent_cursor_stops.2 onePageTransport none "new" none 0 _ none rfl
    (by simp) rfl⟩

/-- C9: `max_posts = 0` is falsy under `if max_posts and ...`, so it
behaves exactly like an unspecified maximum (`None`): the collector is
the same function, and in particular it keeps collecting rather than
returning zero records. -/
theorem C9_zero_max_is_unlimited :
    (∀ (fetch : Option String → Except FetchError (List Post × Option String))
       (acc : List Post) (cursor : Option String) (pages : List (List Post))
       (fuel : Nat),
      getAllPostsGo fetch (some 0) acc cursor pages fuel =
        getAllPostsGo fetch none acc cursor pages fuel) ∧
    (∀ (transport : String → ReqResult PostsBody) (api_key : Option String)
       (sort : String) (fuel : Nat),
      get_all_posts transport api_key sort (some 0) fuel =
        get_all_posts transport api_key sort none fuel) := by
  have main : ∀ (fetch : Option String →
      Except FetchError (List Post × Option String)) (fuel : Nat)
      (acc : List Post) (cursor : Option String) (pages : List (List Post)),
      getAllPostsGo fetch (some 0) acc cursor pages fuel =
        getAllPostsGo fetch none acc cursor pages fuel := by
    intro fetch fuel
    induction fuel with
    | zero => intro acc cursor pages; rfl
    | succ fuel ih =>
      intro acc cursor pages
      cases hf : fetch cursor with
      | error e => simp [getAllPostsGo, hf]
      | ok result =>
        obtain ⟨ps, c⟩ := result
        by_cases hps : ps = []
        · subst hps
          rw [getAllPostsGo_empty_page _ _ _ _ _ _ _ hf,
            getAllPostsGo_empty_page _ _ _ _ _ _ _ hf]
        · rw [getAllPostsGo_nonempty_step _ (some 0) acc cursor pages fuel ps c
            hf hps,
            getAllPostsGo_nonempty_step _ none acc cursor pages fuel ps c hf hps]
          have h0 : maxReached (some 0) (acc ++ ps).length = false := by
            simp [maxReached, truthyNat]
          have h1 : maxReached none (acc ++ ps).length = false := by
            simp [maxReached, truthyNat]
          simp only [h0, h1, Bool.false_eq_true, if_false]
          by_cases hc : truthyStr c = false
          · simp [hc]
          · simp [hc, ih]
  exact ⟨fun fetch acc cursor pages fuel => main fetch fuel acc cursor pages,
    fun transport api_key sort fuel => main _ fuel [] none []⟩

/-! ### Claims about `get_posts` / `get_post_comments` -/

/-- C5: against a server that answers 401 everywhere, a client with no
truthy API key gets `{"posts": [], "next_cursor": None}` from
`get_posts` without any error, and the pagination loop of
`get_all_posts` therefore terminates gracefully with an empty result
after one request. -/
theorem C5_unauthenticated_soft_empty (transport : String → ReqResult PostsBody)
    (api_key : Option String) (sort : String) (limit : Nat)
    (before : Option String) (mp : Option Nat) (fuel : Nat)
    (bodies : String → PostsBody)
    (h401 : ∀ url, transport url = ReqResult.returned ⟨401, bodies url⟩)
    (hkey : truthyStr api_key = false) :
    get_posts transport api_key sort limit before = Except.ok ([], none) ∧
    get_all_posts transport api_key sort mp (fuel + 1) =
      some (Except.ok ([], [[]])) := by
  have hgp : ∀ (lim : Nat) (bef : Option String),
      get_posts transport api_key sort lim bef = Except.ok ([], none) := by
    intro lim bef
    simp [get_posts, h401, hkey]
  refine ⟨hgp limit before, ?_⟩
  unfold get_all_posts
  rw [getAllPostsGo_empty_page _ mp [] none [] fuel none (hgp 100 none)]
  rfl

/-- Witness for C5: the always-401 server with no key yields the empty
page and the empty collection. -/
theorem C5_witness :
    get_posts unauthorizedTransport none "new" 100 none = Except.ok ([], none) ∧
    get_all_posts unauthorizedTransport none "new" none 1 =
      some (Except.ok ([], [[]])) :=
  C5_unauthenticated_soft_empty unauthorizedTransport none "new" 100 none none 0
    (fun _ => ⟨none, none⟩) (fun _ => rfl) rfl

/-- C10: every comment returned by a successful `get_post_comments`
call carries the `post_id` argument in its `post_id` field: the field
is set from the argument, never read from the response body. -/
theorem C10_comment_post_id_from_argument
    (transport : String → ReqResult CommentsBody) (api_key : Option String)
    (post_id sort : String) (cs : List Comment)
    (h : get_post_comments transport api_key post_id sort = Except.ok cs) :
    ∀ comment ∈ cs, comment.post_id = post_id := by
  intro comment hmem
  unfold get_post_comments at h
  split at h
  · exact absurd h (by simp)
  · exact absurd h (by simp)
  · split at h
    · simp only [Except.ok.injEq] at h
      subst h
      simp at hmem
    · split at h
      · exact absurd h (by simp)
      · simp only [Except.ok.injEq] at h
        subst h
        obtain ⟨cj, hcj, rfl⟩ := List.mem_map.mp hmem
        rfl

/-- Witness for C10: a one-comment response yields a comment whose
`post_id` is the argument `"P1"`. -/
theorem C10_witness :
    (parseComment "P1" (sampleCommentJson "k1")).post_id = "P1" :=
  C10_comment_post_id_from_argument oneCommentTransport none "P1" "top"
    [parseComment "P1" (sampleCommentJson "k1")] rfl
    (parseComment "P1" (sampleCommentJson "k1")) (by simp)

end Carcinologer
